import Mathlib

set_option maxHeartbeats 4000000

/- A shallow embedding of the calendar app: the JS date arithmetic of the
   front-end script (dates as integer day numbers since 1970-01-01, with
   Howard Hinnant's civil-from-days algorithm as the reference model of the
   `Date` component getters), the planner event-store handlers (JS objects as
   association lists in key-insertion order, JS reference equality rendered
   through freshness hypotheses), and the two Netlify serverless functions
   (auth.js and the events handler) over an explicit database state. -/

namespace Calendar

def daysFromCivil (y m d : Int) : Int :=
  let yAdj := y - (if m ≤ 2 then 1 else 0)
  let era := yAdj / 400
  let yoe := yAdj - era * 400
  let mp := (m + 9) % 12
  let doy := (153 * mp + 2) / 5 + d - 1
  let doe := yoe * 365 + yoe / 4 - yoe / 100 + doy
  era * 146097 + doe - 719468

def mkDate (y m d : Int) : Int :=
  let t := 12 * y + m
  daysFromCivil (t / 12) (t % 12 + 1) d

def civilFromDays (n : Int) : Int × Int × Int :=
  let z := n + 719468
  let era := z / 146097
  let doe := z - era * 146097
  let yoe := (doe - doe / 1460 + doe / 36524 - doe / 146096) / 365
  let y := yoe + era * 400
  let doy := doe - (365 * yoe + yoe / 4 - yoe / 100)
  let mp := (5 * doy + 2) / 153
  let d := doy - (153 * mp + 2) / 5 + 1
  let m := mp + (if mp < 10 then 3 else -9)
  (y + (if m ≤ 2 then 1 else 0), m, d)

def monthFirst (t : Int) : Int := mkDate 0 t 1

def getFullYear (n : Int) : Int := (civilFromDays n).1

def getMonth (n : Int) : Int := (civilFromDays n).2.1 - 1

def getDate (n : Int) : Int := (civilFromDays n).2.2

def getDay (n : Int) : Int := (n + 4) % 7

/-- JS `buildCalendarDates(year, month)`, dates as day numbers. -/
def buildCalendarDates (year month : Int) : List Int :=
  let firstOfMonth := mkDate year month 1
  let startDay := getDay firstOfMonth
  let daysInPrevMonth := getDate (mkDate year month 0)
  let prevDates := (List.range startDay.toNat).reverse.map
    (fun (i : Nat) => mkDate year (month - 1) (daysInPrevMonth - (i : Int)))
  let daysInMonth := getDate (mkDate year (month + 1) 0)
  let curDates := (List.range daysInMonth.toNat).map
    (fun (d : Nat) => mkDate year month ((d : Int) + 1))
  let nextDays := 42 - (prevDates.length + curDates.length)
  let nextDates := (List.range nextDays).map
    (fun (n : Nat) => mkDate year (month + 1) ((n : Int) + 1))
  prevDates ++ curDates ++ nextDates

/-- A JS `Date` value as the client sees it: the local calendar day (a day
    number), the local wall-clock minute, and the timezone offset in minutes
    east of UTC (local time = UTC + tzOffset). The local component getters
    `getFullYear`/`getMonth`/`getDate` depend only on the local day. -/
structure JSDateTime where
  localDay : Int
  localMinute : Int
  tzOffset : Int
deriving DecidableEq

/-- JS `.toString().padStart(2, '0')`. -/
def jsPadStart2 (s : String) : String :=
  if s.length ≥ 2 then s else String.mk (List.replicate (2 - s.length) '0') ++ s

/-- `toDateKey(date)` from the source: LOCAL year, zero-padded LOCAL month
    and day, joined as `YYYY-MM-DD`. -/
def toDateKey (dt : JSDateTime) : String :=
  toString (getFullYear dt.localDay) ++ "-"
    ++ jsPadStart2 (toString (getMonth dt.localDay + 1)) ++ "-"
    ++ jsPadStart2 (toString (getDate dt.localDay))

def codeOptions : List Int := [1, 2, 3, 80, 0, 61, 95]

/-- The shape of `state.forecast` (Open-Meteo daily arrays). -/
structure ForecastData where
  time : List String
  temperature_2m_max : List Int
  temperature_2m_min : List Int
  weathercode : List Int
deriving DecidableEq

/-- `d.toISOString().split('T')[0]` for the instant at local midnight of the
    local day `day` under timezone offset `tzOffset` (minutes east of UTC):
    the UTC calendar date of that instant. -/
def isoDateOfLocalMidnight (day tzOffset : Int) : String :=
  toString (getFullYear ((day * 1440 - tzOffset) / 1440)) ++ "-"
    ++ jsPadStart2 (toString (getMonth ((day * 1440 - tzOffset) / 1440) + 1)) ++ "-"
    ++ jsPadStart2 (toString (getDate ((day * 1440 - tzOffset) / 1440)))

/-- `fallbackWeather()`: seven synthetic days built from
    `new Date(now.getFullYear(), now.getMonth(), now.getDate() + i)` and
    formatted through `toISOString()` (a UTC conversion). -/
def fallbackWeather (now : JSDateTime) : ForecastData :=
  { time := (List.range 7).map (fun (i : Nat) => isoDateOfLocalMidnight
      (mkDate (getFullYear now.localDay) (getMonth now.localDay)
        (getDate now.localDay + (i : Int))) now.tzOffset),
    temperature_2m_max := (List.range 7).map (fun (i : Nat) => 70 + (i : Int)),
    temperature_2m_min := (List.range 7).map (fun (i : Nat) => 50 + (i : Int)),
    weathercode := (List.range 7).map
      (fun (i : Nat) => codeOptions.getD (i % codeOptions.length) 0) }

end Calendar

namespace Planner

/-- A calendar event object. JS `indexOf` compares objects by reference;
    a freshly constructed event is a reference distinct from every object
    already in a list, which the freshness hypotheses below capture.
    `end` is a reserved word in Lean, so the source field `end` is `endTime`. -/
structure Ev where
  title : String
  start : String
  endTime : String
  allDay : Bool
  color : String
deriving DecidableEq

/-- The event store `STUB_EVENTS`: a JS object mapping date keys to arrays of
    events, modelled as an association list in key-insertion order. -/
abbrev Store := List (String × List Ev)

/-- JS string whitespace test (character code at most 32, covering the
    whitespace the app can meet in prompt input). -/
def isJsSpace (c : Char) : Bool := c.toNat ≤ 32

/-- JS `String.prototype.trim()`. -/
def jsTrim (s : String) : String :=
  String.mk (((s.toList.dropWhile isJsSpace).reverse.dropWhile isJsSpace).reverse)

def splitDashAux : List Char → List Char → List String
  | [], acc => [String.mk acc.reverse]
  | c :: cs, acc =>
    if c = '-' then String.mk acc.reverse :: splitDashAux cs []
    else splitDashAux cs (c :: acc)

/-- JS `String.prototype.split('-')`. -/
def jsSplitDash (s : String) : List String := splitDashAux s.toList []

/-- Property read `STUB_EVENTS[k]` (`none` = `undefined`). -/
def getKey (s : Store) (k : String) : Option (List Ev) :=
  match s with
  | [] => none
  | (k', v) :: rest => if k' = k then some v else getKey rest k

/-- Property write `STUB_EVENTS[k] = v`: overwrites the existing key in place,
    or appends a new key at the end (JS object insertion order). -/
def setKey (s : Store) (k : String) (v : List Ev) : Store :=
  match s with
  | [] => [(k, v)]
  | (k', v') :: rest => if k' = k then (k', v) :: rest else (k', v') :: setKey rest k v

/-- `STUB_EVENTS[k] || []`. -/
def eventsOn (s : Store) (k : String) : List Ev := (getKey s k).getD []

/-- `array.indexOf(e)`: index of the first occurrence, `-1` when absent. -/
def jsIndexOf (l : List Ev) (e : Ev) : Int :=
  match l with
  | [] => -1
  | x :: xs =>
    if x = e then 0
    else if jsIndexOf xs e = -1 then -1 else jsIndexOf xs e + 1

/-- `eventsForDay[n].title = t`. -/
def setTitle (l : List Ev) (n : Nat) (t : String) : List Ev :=
  match l, n with
  | [], _ => []
  | x :: xs, 0 => { x with title := t } :: xs
  | x :: xs, Nat.succ n => x :: setTitle xs n t

/-- `eventsForDay[n].start = a; eventsForDay[n].end = b`. -/
def setTimes (l : List Ev) (n : Nat) (a b : String) : List Ev :=
  match l, n with
  | [], _ => []
  | x :: xs, 0 => { x with start := a, endTime := b } :: xs
  | x :: xs, Nat.succ n => x :: setTimes xs n a b

/-- Which side effects a handler performed. -/
structure Effects where
  saved : Bool
  renderedPlanner : Bool
  renderedCalendar : Bool
deriving DecidableEq

/-- The planner add button (`attachListeners`): insert the new event `e`
    under `dateKey`, creating the bucket if absent, then save and re-render. -/
def addEvent (s : Store) (k : String) (e : Ev) : Store × Effects :=
  let bucket := match getKey s k with
    | none => ([] : List Ev)
    | some l => l
  (setKey s k (bucket ++ [e]), ⟨true, true, true⟩)

/-- The per-event delete handler (identical for all-day chips and timed items):
    splice out the first reference-equal occurrence when present, reassign the
    bucket, save and re-render both views unconditionally. -/
def deleteClick (s : Store) (k : String) (e : Ev) : Store × Effects :=
  let eventsForDay := eventsOn s k
  let idx := jsIndexOf eventsForDay e
  let eventsForDay' := if idx > -1 then eventsForDay.eraseIdx idx.toNat else eventsForDay
  (setKey s k eventsForDay', ⟨true, true, true⟩)

/-- The all-day chip edit handler: prompts for a title (`none` = cancelled);
    only a non-blank trimmed title with the event still present mutates,
    saves and re-renders — otherwise nothing at all happens. -/
def editIconClick (s : Store) (k : String) (e : Ev) (promptResult : Option String) :
    Store × Effects :=
  let eventsForDay := eventsOn s k
  let idx := jsIndexOf eventsForDay e
  match promptResult with
  | none => (s, ⟨false, false, false⟩)
  | some newTitle =>
    let newTitle := jsTrim newTitle
    if 0 < newTitle.length ∧ idx > -1 then
      (setKey s k (setTitle eventsForDay idx.toNat newTitle), ⟨true, true, true⟩)
    else (s, ⟨false, false, false⟩)

/-- The all-day chip fallback click: confirm (`del`) chooses delete vs edit;
    the bucket is reassigned and save + re-render run unconditionally. -/
def chipClick (s : Store) (k : String) (e : Ev) (del : Bool)
    (promptResult : Option String) : Store × Effects :=
  let eventsForDay := eventsOn s k
  let idx := jsIndexOf eventsForDay e
  let eventsForDay' :=
    if del then
      if idx > -1 then eventsForDay.eraseIdx idx.toNat else eventsForDay
    else
      match promptResult with
      | none => eventsForDay
      | some newTitle =>
        let newTitle := jsTrim newTitle
        if 0 < newTitle.length ∧ idx > -1 then setTitle eventsForDay idx.toNat newTitle
        else eventsForDay
  (setKey s k eventsForDay', ⟨true, true, true⟩)

/-- The timed item edit handler: title prompt then time-range prompt; the
    bucket is reassigned and save + re-render run unconditionally. -/
def editBtnClick (s : Store) (k : String) (e : Ev)
    (titleResult timeResult : Option String) : Store × Effects :=
  let eventsForDay := eventsOn s k
  let idx := jsIndexOf eventsForDay e
  let l1 := match titleResult with
    | none => eventsForDay
    | some newTitle =>
      let newTitle := jsTrim newTitle
      if 0 < newTitle.length ∧ idx > -1 then setTitle eventsForDay idx.toNat newTitle
      else eventsForDay
  let l2 := match timeResult with
    | none => l1
    | some timeInput =>
      if 0 < (jsTrim timeInput).length ∧ idx > -1 then
        match jsSplitDash timeInput with
        | [p1, p2] => setTimes l1 idx.toNat (jsTrim p1) (jsTrim p2)
        | _ => l1
      else l1
  (setKey s k l2, ⟨true, true, true⟩)

/-- The timed item fallback click: confirm chooses delete vs (title + time)
    edit; the bucket is reassigned and save + re-render run unconditionally. -/
def itemClick (s : Store) (k : String) (e : Ev) (del : Bool)
    (titleResult timeResult : Option String) : Store × Effects :=
  let eventsForDay := eventsOn s k
  let idx := jsIndexOf eventsForDay e
  let eventsForDay' :=
    if del then
      if idx > -1 then eventsForDay.eraseIdx idx.toNat else eventsForDay
    else
      let l1 := match titleResult with
        | none => eventsForDay
        | some newTitle =>
          let newTitle := jsTrim newTitle
          if 0 < newTitle.length ∧ idx > -1 then setTitle eventsForDay idx.toNat newTitle
          else eventsForDay
      match timeResult with
      | none => l1
      | some timeInput =>
        if 0 < (jsTrim timeInput).length ∧ idx > -1 then
          match jsSplitDash timeInput with
          | [p1, p2] => setTimes l1 idx.toNat (jsTrim p1) (jsTrim p2)
          | _ => l1
        else l1
  (setKey s k eventsForDay', ⟨true, true, true⟩)

def evA : Ev := ⟨"Team sync", "09:00", "10:00", false, "#3EA6FF"⟩

def evB : Ev := ⟨"Yoga class", "18:00", "19:00", false, "#3EA6FF"⟩

end Planner

namespace Backend

/-- A row of the `users` table (`id SERIAL PRIMARY KEY, username TEXT UNIQUE,
    password TEXT`). -/
structure UserRow where
  id : Int
  username : String
  password : String
deriving DecidableEq

/-- A row of the `events` table. `end` is reserved in Lean: `end_time` keeps
    the column name readable. -/
structure EvRow where
  user_id : Int
  date : String
  title : String
  start_time : String
  end_time : String
  all_day : Bool
  color : String
deriving DecidableEq

/-- An event object inside a POST /events payload; `color` may be absent. -/
structure EvJson where
  title : String
  start : String
  endTime : String
  allDay : Bool
  color : Option String
deriving DecidableEq

/-- An event as the GET /events handler returns it (color always present). -/
structure EvOut where
  title : String
  start : String
  endTime : String
  allDay : Bool
  color : String
deriving DecidableEq

/-- The `events` field of a POST body: absent (`typeof` is `'undefined'`),
    JSON `null` (`typeof` is `'object'`!), or a JSON object of arrays. -/
inductive EventsField where
  | undef
  | null
  | obj (entries : List (String × List EvJson))
deriving DecidableEq

/-- Database state: the two tables plus the next SERIAL user id. -/
structure DB where
  users : List UserRow
  events : List EvRow
  nextId : Int
deriving DecidableEq

/-- JS truthiness of an optional string (`!x` holds for `undefined` and `""`). -/
def truthy : Option String → Bool
  | none => false
  | some s => s != ""

/-- JS `x || d` for an optional string (`""` is falsy). -/
def jsOr (o : Option String) (dflt : String) : String :=
  match o with
  | none => dflt
  | some s => if s = "" then dflt else s

/-- `SELECT ... FROM users WHERE username = u` followed by `rows[0]`. -/
def findUser (users : List UserRow) (u : String) : Option UserRow :=
  match users with
  | [] => none
  | r :: rest => if r.username = u then some r else findUser rest u

/-- `UPDATE users SET password = p WHERE id = uid`. -/
def updatePasswordById (users : List UserRow) (uid : Int) (p : String) : List UserRow :=
  users.map (fun r => if r.id = uid then { r with password := p } else r)

/-- A parsed request body for the auth function. -/
structure AuthReq where
  httpMethod : String
  action : Option String
  username : Option String
  password : Option String
  newPassword : Option String

/-- The auth function `handler` (auth.js): returns the HTTP status, whether
    the body was `{status:'ok'}`, and the resulting users table. -/
def authHandler (db : DB) (req : AuthReq) : Int × Bool × DB :=
  if req.httpMethod ≠ "POST" then (405, false, db)
  else if ¬ (truthy req.action = true ∧ truthy req.username = true) then (400, false, db)
  else
    let a := req.action.getD ""
    let u := req.username.getD ""
    if a = "signup" then
      match findUser db.users u with
      | some _ => (400, false, db)
      | none => (200, true, { db with
          users := db.users ++ [⟨db.nextId, u, req.password.getD ""⟩],
          nextId := db.nextId + 1 })
    else if a = "login" then
      match findUser db.users u with
      | none => (401, false, db)
      | some r => if req.password = some r.password then (200, true, db) else (401, false, db)
    else if a = "changePassword" then
      if ¬ (truthy req.password = true ∧ truthy req.newPassword = true) then (400, false, db)
      else
        match findUser db.users u with
        | none => (401, false, db)
        | some r =>
          if req.password = some r.password then
            (200, true, { db with users := updatePasswordById db.users r.id (req.newPassword.getD "") })
          else (401, false, db)
    else (400, false, db)

/-- `SELECT id FROM users ...; INSERT INTO users (username, password) VALUES (u, '')`
    when absent (events.js POST branch). -/
def getOrCreateUser (db : DB) (u : String) : Int × DB :=
  match findUser db.users u with
  | some r => (r.id, db)
  | none => (db.nextId, { db with
      users := db.users ++ [⟨db.nextId, u, ""⟩],
      nextId := db.nextId + 1 })

/-- The GET branch's projection of a stored row into a response event. -/
def rowOut (row : EvRow) : EvOut :=
  ⟨row.title, row.start_time, row.end_time, row.all_day, row.color⟩

/-- One inserted row of the POST loop, with the `color || '#3EA6FF'` default. -/
def rowOf (uid : Int) (dateKey : String) (ev : EvJson) : EvRow :=
  ⟨uid, dateKey, ev.title, ev.start, ev.endTime, ev.allDay, jsOr ev.color "#3EA6FF"⟩

/-- The events function `handler` for POST (events.js): validation, user
    get-or-create, bulk delete, then re-insert. `events === null` passes the
    `typeof events !== 'object'` check, so the user lookup/creation and the
    DELETE run first and `Object.entries(null)` then throws, caught as a 500. -/
def postEvents (db : DB) (user : Option String) (events : EventsField) : Int × DB :=
  if ¬ (truthy user = true) ∨ events = EventsField.undef then (400, db)
  else
    let u := user.getD ""
    let uid := (getOrCreateUser db u).1
    let db1 := (getOrCreateUser db u).2
    let db2 := { db1 with events := db1.events.filter (fun r => r.user_id ≠ uid) }
    match events with
    | EventsField.undef => (400, db)
    | EventsField.null => (500, db2)
    | EventsField.obj entries =>
      (200, { db2 with events := db2.events ++
        (entries.flatMap (fun p => p.2.map (fun ev => rowOf uid p.1 ev))) })

/-- `eventsMap[dateKey] ||= []; eventsMap[dateKey].push(...)`: group a row into
    the response object (JS object key-insertion order). -/
def addToMap (m : List (String × List EvOut)) (k : String) (v : EvOut) :
    List (String × List EvOut) :=
  match m with
  | [] => [(k, [v])]
  | (k', l) :: rest => if k' = k then (k', l ++ [v]) :: rest else (k', l) :: addToMap rest k v

/-- The row-to-map loop of the GET branch. The `DATE` column round-trips the
    canonical `YYYY-MM-DD` key, so `row.date.toISOString().split('T')[0]`
    returns the stored key verbatim. -/
def rowsToMap (rows : List EvRow) : List (String × List EvOut) :=
  rows.foldl (fun m row => addToMap m row.date (rowOut row)) []

/-- The events function `handler` for GET (events.js). -/
def getEvents (db : DB) (user : Option String) : Int × List (String × List EvOut) :=
  if ¬ (truthy user = true) then (400, [])
  else
    match findUser db.users (user.getD "") with
    | none => (200, [])
    | some r => (200, rowsToMap (db.events.filter (fun row => row.user_id = r.id)))

/-- A payload event as it comes back out of a POST-then-GET round trip. -/
def outOfJson (ev : EvJson) : EvOut :=
  ⟨ev.title, ev.start, ev.endTime, ev.allDay, jsOr ev.color "#3EA6FF"⟩

end Backend

namespace Calendar

theorem yearStep (y : Int) :
    365 ≤ (y / 400) * 146097 + (y - 400 * (y / 400)) * 365
        + (y - 400 * (y / 400)) / 4 - (y - 400 * (y / 400)) / 100
      - (((y - 1) / 400) * 146097 + ((y - 1) - 400 * ((y - 1) / 400)) * 365
        + ((y - 1) - 400 * ((y - 1) / 400)) / 4 - ((y - 1) - 400 * ((y - 1) / 400)) / 100) ∧
    (y / 400) * 146097 + (y - 400 * (y / 400)) * 365
        + (y - 400 * (y / 400)) / 4 - (y - 400 * (y / 400)) / 100
      - (((y - 1) / 400) * 146097 + ((y - 1) - 400 * ((y - 1) / 400)) * 365
        + ((y - 1) - 400 * ((y - 1) / 400)) / 4 - ((y - 1) - 400 * ((y - 1) / 400)) / 100) ≤ 366 := by
  omega

theorem monthFirst_step (t : Int) :
    monthFirst t + 28 ≤ monthFirst (t + 1) ∧ monthFirst (t + 1) ≤ monthFirst t + 31 := by
  obtain ⟨q, r, rfl, hr0, hr1⟩ : ∃ q r, t = 12 * q + r ∧ 0 ≤ r ∧ r ≤ 11 :=
    ⟨t / 12, t % 12, by omega, by omega, by omega⟩
  have hy := yearStep q
  simp only [monthFirst, mkDate, daysFromCivil]
  interval_cases r <;> split_ifs <;> omega

theorem yoeRecover (yoe doy : Int) (h0 : 0 ≤ yoe) (h1 : yoe ≤ 399) (h2 : 0 ≤ doy)
    (h3 : 365 * yoe + yoe / 4 - yoe / 100 + doy ≤
      365 * (yoe + 1) + (yoe + 1) / 4 - (yoe + 1) / 100 - 1 + (yoe + 1) / 400) :
    ((365 * yoe + yoe / 4 - yoe / 100 + doy)
      - (365 * yoe + yoe / 4 - yoe / 100 + doy) / 1460
      + (365 * yoe + yoe / 4 - yoe / 100 + doy) / 36524
      - (365 * yoe + yoe / 4 - yoe / 100 + doy) / 146096) / 365 = yoe := by
  interval_cases yoe <;> omega

theorem civilFromDays_spec (n E yoe doy : Int)
    (hE : n = 146097 * E + (365 * yoe + yoe / 4 - yoe / 100) + doy - 719468)
    (h0 : 0 ≤ yoe) (h1 : yoe ≤ 399) (h2 : 0 ≤ doy)
    (h3 : 365 * yoe + yoe / 4 - yoe / 100 + doy ≤
      365 * (yoe + 1) + (yoe + 1) / 4 - (yoe + 1) / 100 - 1 + (yoe + 1) / 400) :
    civilFromDays n =
      (yoe + 400 * E + (if (5 * doy + 2) / 153 + (if (5 * doy + 2) / 153 < 10 then 3 else -9) ≤ 2 then 1 else 0),
       (5 * doy + 2) / 153 + (if (5 * doy + 2) / 153 < 10 then 3 else -9),
       doy - (153 * ((5 * doy + 2) / 153) + 2) / 5 + 1) := by
  have hS := yoeRecover yoe doy h0 h1 h2 h3
  simp only [civilFromDays, Prod.mk.injEq]
  set z := n + 719468 with hz
  set era := z / 146097 with hera
  set doe := z - era * 146097 with hdoe
  set s1 := doe / 1460 with hs1
  set s2 := doe / 36524 with hs2
  set s3 := doe / 146096 with hs3
  set yoeN := (doe - s1 + s2 - s3) / 365 with hyoeN
  set q4 := yoeN / 4 with hq4
  set q100 := yoeN / 100 with hq100
  set doyN := doe - (365 * yoeN + q4 - q100) with hdoyN
  set mpN := (5 * doyN + 2) / 153 with hmpN
  have l1 : 0 ≤ 365 * yoe + yoe / 4 - yoe / 100 + doy ∧
      365 * yoe + yoe / 4 - yoe / 100 + doy ≤ 146096 := by omega
  have l2 : era = E := by omega
  have l3 : doe = 365 * yoe + yoe / 4 - yoe / 100 + doy := by omega
  have l4 : s1 = (365 * yoe + yoe / 4 - yoe / 100 + doy) / 1460 := by
    rw [hs1, l3]
  have l5 : s2 = (365 * yoe + yoe / 4 - yoe / 100 + doy) / 36524 := by
    rw [hs2, l3]
  have l6 : s3 = (365 * yoe + yoe / 4 - yoe / 100 + doy) / 146096 := by
    rw [hs3, l3]
  have l7 : yoeN = yoe := by
    rw [hyoeN, l3, l4, l5, l6]; exact hS
  have l8 : q4 = yoe / 4 := by rw [hq4, l7]
  have l9 : q100 = yoe / 100 := by rw [hq100, l7]
  have l10 : doyN = doy := by
    rw [hdoyN, l3, l7, l8, l9]; ring
  have l11 : mpN = (5 * doy + 2) / 153 := by rw [hmpN, l10]
  split_ifs <;> omega

theorem monthFirst_inv (t k : Int) (hk0 : 0 ≤ k) (hk : monthFirst t + k < monthFirst (t + 1)) :
    civilFromDays (monthFirst t + k) = (t / 12, (t % 12 + 1, k + 1)) := by
  obtain ⟨q, r, rfl, hr0, hr1⟩ : ∃ q r, t = 12 * q + r ∧ 0 ≤ r ∧ r ≤ 11 :=
    ⟨t / 12, t % 12, by omega, by omega, by omega⟩
  simp only [monthFirst, mkDate, daysFromCivil] at hk
  rcases (by omega : r = 0 ∨ r = 1 ∨ r = 2 ∨ r = 3 ∨ r = 4 ∨ r = 5 ∨ r = 6 ∨ r = 7 ∨
      r = 8 ∨ r = 9 ∨ r = 10 ∨ r = 11) with rfl | rfl | rfl | rfl | rfl | rfl | rfl | rfl | rfl | rfl | rfl | rfl
  · have hE : monthFirst (12 * q + 0) + k = 146097 * ((q - 1) / 400)
        + (365 * ((q - 1) - 400 * ((q - 1) / 400)) + ((q - 1) - 400 * ((q - 1) / 400)) / 4
           - ((q - 1) - 400 * ((q - 1) / 400)) / 100) + (306 + k) - 719468 := by
      simp only [monthFirst, mkDate, daysFromCivil]; split_ifs <;> omega
    have hc := civilFromDays_spec _ ((q - 1) / 400) ((q - 1) - 400 * ((q - 1) / 400)) (306 + k)
      hE (by omega) (by omega) (by omega) (by omega)
    rw [hc]
    have hmp : (5 * (306 + k) + 2) / 153 = 10 := by omega
    simp only [Prod.mk.injEq]
    split_ifs <;> omega
  · have hE : monthFirst (12 * q + 1) + k = 146097 * ((q - 1) / 400)
        + (365 * ((q - 1) - 400 * ((q - 1) / 400)) + ((q - 1) - 400 * ((q - 1) / 400)) / 4
           - ((q - 1) - 400 * ((q - 1) / 400)) / 100) + (337 + k) - 719468 := by
      simp only [monthFirst, mkDate, daysFromCivil]; split_ifs <;> omega
    have hc := civilFromDays_spec _ ((q - 1) / 400) ((q - 1) - 400 * ((q - 1) / 400)) (337 + k)
      hE (by omega) (by omega) (by omega) (by omega)
    rw [hc]
    have hmp : (5 * (337 + k) + 2) / 153 = 11 := by omega
    simp only [Prod.mk.injEq]
    split_ifs <;> omega
  · have hE : monthFirst (12 * q + 2) + k = 146097 * (q / 400)
        + (365 * (q - 400 * (q / 400)) + (q - 400 * (q / 400)) / 4
           - (q - 400 * (q / 400)) / 100) + (0 + k) - 719468 := by
      simp only [monthFirst, mkDate, daysFromCivil]; split_ifs <;> omega
    have hc := civilFromDays_spec _ (q / 400) (q - 400 * (q / 400)) (0 + k)
      hE (by omega) (by omega) (by omega) (by omega)
    rw [hc]
    have hmp : (5 * (0 + k) + 2) / 153 = 0 := by omega
    simp only [Prod.mk.injEq]
    split_ifs <;> omega
  · have hE : monthFirst (12 * q + 3) + k = 146097 * (q / 400)
        + (365 * (q - 400 * (q / 400)) + (q - 400 * (q / 400)) / 4
           - (q - 400 * (q / 400)) / 100) + (31 + k) - 719468 := by
      simp only [monthFirst, mkDate, daysFromCivil]; split_ifs <;> omega
    have hc := civilFromDays_spec _ (q / 400) (q - 400 * (q / 400)) (31 + k)
      hE (by omega) (by omega) (by omega) (by omega)
    rw [hc]
    have hmp : (5 * (31 + k) + 2) / 153 = 1 := by omega
    simp only [Prod.mk.injEq]
    split_ifs <;> omega
  · have hE : monthFirst (12 * q + 4) + k = 146097 * (q / 400)
        + (365 * (q - 400 * (q / 400)) + (q - 400 * (q / 400)) / 4
           - (q - 400 * (q / 400)) / 100) + (61 + k) - 719468 := by
      simp only [monthFirst, mkDate, daysFromCivil]; split_ifs <;> omega
    have hc := civilFromDays_spec _ (q / 400) (q - 400 * (q / 400)) (61 + k)
      hE (by omega) (by omega) (by omega) (by omega)
    rw [hc]
    have hmp : (5 * (61 + k) + 2) / 153 = 2 := by omega
    simp only [Prod.mk.injEq]
    split_ifs <;> omega
  · have hE : monthFirst (12 * q + 5) + k = 146097 * (q / 400)
        + (365 * (q - 400 * (q / 400)) + (q - 400 * (q / 400)) / 4
           - (q - 400 * (q / 400)) / 100) + (92 + k) - 719468 := by
      simp only [monthFirst, mkDate, daysFromCivil]; split_ifs <;> omega
    have hc := civilFromDays_spec _ (q / 400) (q - 400 * (q / 400)) (92 + k)
      hE (by omega) (by omega) (by omega) (by omega)
    rw [hc]
    have hmp : (5 * (92 + k) + 2) / 153 = 3 := by omega
    simp only [Prod.mk.injEq]
    split_ifs <;> omega
  · have hE : monthFirst (12 * q + 6) + k = 146097 * (q / 400)
        + (365 * (q - 400 * (q / 400)) + (q - 400 * (q / 400)) / 4
           - (q - 400 * (q / 400)) / 100) + (122 + k) - 719468 := by
      simp only [monthFirst, mkDate, daysFromCivil]; split_ifs <;> omega
    have hc := civilFromDays_spec _ (q / 400) (q - 400 * (q / 400)) (122 + k)
      hE (by omega) (by omega) (by omega) (by omega)
    rw [hc]
    have hmp : (5 * (122 + k) + 2) / 153 = 4 := by omega
    simp only [Prod.mk.injEq]
    split_ifs <;> omega
  · have hE : monthFirst (12 * q + 7) + k = 146097 * (q / 400)
        + (365 * (q - 400 * (q / 400)) + (q - 400 * (q / 400)) / 4
           - (q - 400 * (q / 400)) / 100) + (153 + k) - 719468 := by
      simp only [monthFirst, mkDate, daysFromCivil]; split_ifs <;> omega
    have hc := civilFromDays_spec _ (q / 400) (q - 400 * (q / 400)) (153 + k)
      hE (by omega) (by omega) (by omega) (by omega)
    rw [hc]
    have hmp : (5 * (153 + k) + 2) / 153 = 5 := by omega
    simp only [Prod.mk.injEq]
    split_ifs <;> omega
  · have hE : monthFirst (12 * q + 8) + k = 146097 * (q / 400)
        + (365 * (q - 400 * (q / 400)) + (q - 400 * (q / 400)) / 4
           - (q - 400 * (q / 400)) / 100) + (184 + k) - 719468 := by
      simp only [monthFirst, mkDate, daysFromCivil]; split_ifs <;> omega
    have hc := civilFromDays_spec _ (q / 400) (q - 400 * (q / 400)) (184 + k)
      hE (by omega) (by omega) (by omega) (by omega)
    rw [hc]
    have hmp : (5 * (184 + k) + 2) / 153 = 6 := by omega
    simp only [Prod.mk.injEq]
    split_ifs <;> omega
  · have hE : monthFirst (12 * q + 9) + k = 146097 * (q / 400)
        + (365 * (q - 400 * (q / 400)) + (q - 400 * (q / 400)) / 4
           - (q - 400 * (q / 400)) / 100) + (214 + k) - 719468 := by
      simp only [monthFirst, mkDate, daysFromCivil]; split_ifs <;> omega
    have hc := civilFromDays_spec _ (q / 400) (q - 400 * (q / 400)) (214 + k)
      hE (by omega) (by omega) (by omega) (by omega)
    rw [hc]
    have hmp : (5 * (214 + k) + 2) / 153 = 7 := by omega
    simp only [Prod.mk.injEq]
    split_ifs <;> omega
  · have hE : monthFirst (12 * q + 10) + k = 146097 * (q / 400)
        + (365 * (q - 400 * (q / 400)) + (q - 400 * (q / 400)) / 4
           - (q - 400 * (q / 400)) / 100) + (245 + k) - 719468 := by
      simp only [monthFirst, mkDate, daysFromCivil]; split_ifs <;> omega
    have hc := civilFromDays_spec _ (q / 400) (q - 400 * (q / 400)) (245 + k)
      hE (by omega) (by omega) (by omega) (by omega)
    rw [hc]
    have hmp : (5 * (245 + k) + 2) / 153 = 8 := by omega
    simp only [Prod.mk.injEq]
    split_ifs <;> omega
  · have hE : monthFirst (12 * q + 11) + k = 146097 * (q / 400)
        + (365 * (q - 400 * (q / 400)) + (q - 400 * (q / 400)) / 4
           - (q - 400 * (q / 400)) / 100) + (275 + k) - 719468 := by
      simp only [monthFirst, mkDate, daysFromCivil]; split_ifs <;> omega
    have hc := civilFromDays_spec _ (q / 400) (q - 400 * (q / 400)) (275 + k)
      hE (by omega) (by omega) (by omega) (by omega)
    rw [hc]
    have hmp : (5 * (275 + k) + 2) / 153 = 9 := by omega
    simp only [Prod.mk.injEq]
    split_ifs <;> omega

theorem mkDate_eq (y m d : Int) : mkDate y m d = monthFirst (12 * y + m) + (d - 1) := by
  simp only [mkDate, monthFirst, daysFromCivil, mul_zero, zero_add]
  split_ifs <;> omega

theorem getDate_last (t : Int) : getDate (monthFirst t - 1) = monthFirst t - monthFirst (t - 1) := by
  have hs := monthFirst_step (t - 1)
  rw [show t - 1 + 1 = t from by ring] at hs
  have hinv := monthFirst_inv (t - 1) (monthFirst t - monthFirst (t - 1) - 1) (by omega)
    (by rw [show t - 1 + 1 = t from by ring]; omega)
  unfold getDate
  rw [show monthFirst t - 1 = monthFirst (t - 1) + (monthFirst t - monthFirst (t - 1) - 1) from by ring,
    hinv]
  show monthFirst t - monthFirst (t - 1) - 1 + 1 = _
  ring

theorem rev_map_eq (n : Nat) (c : Int) :
    (List.range n).reverse.map (fun (i : Nat) => c - (i : Int) - 1) =
      (List.range n).map (fun (j : Nat) => c - (n : Int) + (j : Int)) := by
  apply List.ext_getElem?
  intro j
  by_cases hj : j < n
  · rw [List.getElem?_map, List.getElem?_map,
      List.getElem?_reverse (by simpa using hj), List.getElem?_range hj]
    simp only [List.length_reverse, List.length_range, List.getElem?_range
      (by omega : n - 1 - j < n)]
    simp only [Option.map_some']
    congr 1
    omega
  · rw [List.getElem?_map, List.getElem?_map]
    rw [List.getElem?_eq_none (by simp; omega), List.getElem?_eq_none (by simp; omega)]
    rfl

theorem buildCalendarDates_eq (y m : Int) :
    buildCalendarDates y m =
      (List.range 42).map (fun (i : Nat) => mkDate y m 1 - getDay (mkDate y m 1) + (i : Int)) := by
  have hstep := monthFirst_step (12 * y + m)
  have hstep' := monthFirst_step (12 * y + m - 1)
  rw [show 12 * y + m - 1 + 1 = 12 * y + m from by ring] at hstep'
  have hprev : getDate (mkDate y m 0) = monthFirst (12 * y + m) - monthFirst (12 * y + m - 1) := by
    rw [show mkDate y m 0 = monthFirst (12 * y + m) - 1 from by rw [mkDate_eq]; ring]
    exact getDate_last _
  have hcur : getDate (mkDate y (m + 1) 0) =
      monthFirst (12 * y + m + 1) - monthFirst (12 * y + m) := by
    rw [show mkDate y (m + 1) 0 = monthFirst (12 * y + m + 1) - 1 from by
      rw [mkDate_eq]; ring_nf]
    have h := getDate_last (12 * y + m + 1)
    rw [show 12 * y + m + 1 - 1 = 12 * y + m from by ring] at h
    exact h
  have hF1 : mkDate y m 1 = monthFirst (12 * y + m) := by rw [mkDate_eq]; ring
  set F := monthFirst (12 * y + m) with hF
  set P := monthFirst (12 * y + m - 1) with hP
  set N := monthFirst (12 * y + m + 1) with hN
  have hs0 : 0 ≤ getDay F := by unfold getDay; omega
  have hs6 : getDay F ≤ 6 := by unfold getDay; omega
  unfold buildCalendarDates
  rw [hF1, hprev, hcur]
  simp only [List.length_map, List.length_reverse, List.length_range]
  -- prev segment
  have hprevSeg : (List.range (getDay F).toNat).reverse.map
      (fun (i : Nat) => mkDate y (m - 1) (F - P - (i : Int))) =
      (List.range (getDay F).toNat).map (fun (j : Nat) => F - getDay F + (j : Int)) := by
    have : (fun (i : Nat) => mkDate y (m - 1) (F - P - (i : Int))) =
        (fun (i : Nat) => F - (i : Int) - 1) := by
      funext i
      rw [mkDate_eq, show 12 * y + (m - 1) = 12 * y + m - 1 from by ring, ← hP]
      ring
    rw [this, rev_map_eq]
    apply List.map_congr_left
    intro a ha
    have : ((getDay F).toNat : Int) = getDay F := by omega
    rw [this]
  -- cur segment
  have hcurSeg : (List.range (N - F).toNat).map (fun (d : Nat) => mkDate y m ((d : Int) + 1)) =
      (List.range (N - F).toNat).map (fun (d : Nat) => F + (d : Int)) := by
    apply List.map_congr_left
    intro a _
    rw [mkDate_eq, ← hF]
    ring
  -- next segment
  have hnextSeg : ∀ c : Nat, (List.range c).map (fun (n : Nat) => mkDate y (m + 1) ((n : Int) + 1)) =
      (List.range c).map (fun (n : Nat) => N + (n : Int)) := by
    intro c
    apply List.map_congr_left
    intro a _
    rw [mkDate_eq, show 12 * y + (m + 1) = 12 * y + m + 1 from by ring, ← hN]
    ring
  rw [hprevSeg, hcurSeg, hnextSeg, List.append_assoc]
  -- now assemble: all three segments are arithmetic progressions
  have hsplit : (42 : Nat) = (getDay F).toNat + ((N - F).toNat +
      (42 - ((getDay F).toNat + (N - F).toNat))) := by omega
  conv_rhs => rw [hsplit, List.range_add, List.range_add]
  simp only [List.map_append, List.map_map]
  congr 1
  congr 1
  · apply List.map_congr_left
    intro a _
    simp only [Function.comp_apply]
    push_cast
    omega
  · apply List.map_congr_left
    intro a _
    simp only [Function.comp_apply]
    push_cast
    omega

theorem buildCalendarDates_getElem (y m : Int) (i : Nat) (hi : i < 42) :
    (buildCalendarDates y m)[i]? =
      some (mkDate y m 1 - getDay (mkDate y m 1) + (i : Int)) := by
  rw [buildCalendarDates_eq, List.getElem?_map, List.getElem?_range hi, Option.map_some']

/-- C1: `buildCalendarDates(y, m)` returns exactly 42 dates; the first is
    the Sunday on or before the 1st of `(y, m)` (at most 6 days before it);
    the 1st of the month is among them; and consecutive entries are
    consecutive days, so the dates ascend strictly with no gaps. -/
theorem buildCalendarDates_C1 (y m : Int) :
    (buildCalendarDates y m).length = 42 ∧
    (buildCalendarDates y m)[0]? = some (mkDate y m 1 - getDay (mkDate y m 1)) ∧
    getDay (mkDate y m 1 - getDay (mkDate y m 1)) = 0 ∧
    mkDate y m 1 - 6 ≤ mkDate y m 1 - getDay (mkDate y m 1) ∧
    mkDate y m 1 - getDay (mkDate y m 1) ≤ mkDate y m 1 ∧
    mkDate y m 1 ∈ buildCalendarDates y m ∧
    ∀ i : Nat, i + 1 < 42 →
      (buildCalendarDates y m)[i + 1]? = ((buildCalendarDates y m)[i]?).map (· + 1) := by
  refine ⟨?_, ?_, ?_, ?_, ?_, ?_, ?_⟩
  · rw [buildCalendarDates_eq]; simp
  · rw [buildCalendarDates_getElem y m 0 (by omega)]
    norm_num
  · unfold getDay; omega
  · unfold getDay; omega
  · unfold getDay; omega
  · rw [buildCalendarDates_eq]
    refine List.mem_map.mpr ⟨(getDay (mkDate y m 1)).toNat,
      List.mem_range.mpr (by unfold getDay; omega), ?_⟩
    have h0 : 0 ≤ getDay (mkDate y m 1) := by unfold getDay; omega
    omega
  · intro i hi
    rw [buildCalendarDates_getElem y m (i + 1) hi,
      buildCalendarDates_getElem y m i (by omega), Option.map_some']
    congr 1
    push_cast
    ring

theorem buildCalendarDates_C1_witness :
    (buildCalendarDates 2025 7).length = 42 ∧
    (0 : Nat) + 1 < 42 ∧
    (buildCalendarDates 2025 7)[0 + 1]? = ((buildCalendarDates 2025 7)[0]?).map (· + 1) :=
  ⟨(buildCalendarDates_C1 2025 7).1, by decide,
    (buildCalendarDates_C1 2025 7).2.2.2.2.2.2 0 (by decide)⟩

theorem mkDate_today (t k i : Int) (hk0 : 0 ≤ k) (hk : monthFirst t + k < monthFirst (t + 1)) :
    mkDate (getFullYear (monthFirst t + k)) (getMonth (monthFirst t + k))
      (getDate (monthFirst t + k) + i) = monthFirst t + k + i := by
  unfold getFullYear getMonth getDate
  rw [monthFirst_inv t k hk0 hk]
  show mkDate (t / 12) (t % 12 + 1 - 1) (k + 1 + i) = monthFirst t + k + i
  rw [mkDate_eq]
  rw [show 12 * (t / 12) + (t % 12 + 1 - 1) = t from by omega]
  ring

/-- C2: `toDateKey` reads only the local calendar day — any two instants on
    the same local day produce the same key, whatever their time of day or
    timezone offset — and the key is the `YYYY-MM-DD` rendering of the true
    civil components of that day. -/
theorem toDateKey_localOnly :
    (∀ dt dt' : JSDateTime, dt.localDay = dt'.localDay → toDateKey dt = toDateKey dt') ∧
    (∀ (t k : Int) (dt : JSDateTime), 0 ≤ k → monthFirst t + k < monthFirst (t + 1) →
      dt.localDay = monthFirst t + k →
      toDateKey dt = toString (t / 12) ++ "-" ++ jsPadStart2 (toString (t % 12 + 1))
        ++ "-" ++ jsPadStart2 (toString (k + 1))) := by
  constructor
  · intro dt dt' h
    unfold toDateKey
    rw [h]
  · intro t k dt hk0 hk hday
    unfold toDateKey getFullYear getMonth getDate
    rw [hday, monthFirst_inv t k hk0 hk]
    show toString (t / 12) ++ "-" ++ jsPadStart2 (toString (t % 12 + 1 - 1 + 1)) ++ "-"
      ++ jsPadStart2 (toString (k + 1)) = _
    rw [show t % 12 + 1 - 1 + 1 = t % 12 + 1 from by ring]

theorem toDateKey_localOnly_witness :
    toDateKey ⟨20318, 1410, -300⟩ = "2025-08-18" := by
  have h := toDateKey_localOnly.2 (12 * 2025 + 7) 17 ⟨20318, 1410, -300⟩
    (by decide) (by decide) (by decide)
  rw [h]
  decide

/-- C3 counterexample: on 2025-08-18 in a UTC+5 timezone, the first fallback
    entry is dated 2025-08-17, not the current local date. -/
theorem fallbackWeather_tz_counterexample :
    (fallbackWeather ⟨20318, 0, 300⟩).time[0]? = some "2025-08-17" ∧
    toDateKey ⟨20318, 0, 300⟩ = "2025-08-18" ∧
    (fallbackWeather ⟨20318, 0, 300⟩).time[0]? ≠ some (toDateKey ⟨20318, 0, 300⟩) := by
  decide

/-- C3 amended: always exactly 7 entries; entry `i` is dated with the UTC
    date of local midnight of (today + i), so the underlying days are exactly
    consecutive; the first entry carries the current local date exactly when
    the timezone offset is ≤ 0 (UTC or west), and the previous calendar day
    when the offset is positive (east of UTC). -/
theorem fallbackWeather_amended (t k : Int) (now : JSDateTime)
    (hk0 : 0 ≤ k) (hk : monthFirst t + k < monthFirst (t + 1))
    (hday : now.localDay = monthFirst t + k)
    (hoff : -1440 < now.tzOffset ∧ now.tzOffset < 1440) :
    (fallbackWeather now).time.length = 7 ∧
    (fallbackWeather now).temperature_2m_max.length = 7 ∧
    (fallbackWeather now).temperature_2m_min.length = 7 ∧
    (fallbackWeather now).weathercode.length = 7 ∧
    (∀ i : Nat, i < 7 → (fallbackWeather now).time[i]? =
      some (isoDateOfLocalMidnight (now.localDay + (i : Int)) now.tzOffset)) ∧
    (∀ i : Nat, i < 7 →
      ((now.localDay + (i : Int)) * 1440 - now.tzOffset) / 1440 =
        (now.localDay * 1440 - now.tzOffset) / 1440 + (i : Int)) ∧
    (now.tzOffset ≤ 0 → (now.localDay * 1440 - now.tzOffset) / 1440 = now.localDay) ∧
    (0 < now.tzOffset → (now.localDay * 1440 - now.tzOffset) / 1440 = now.localDay - 1) ∧
    (now.tzOffset ≤ 0 →
      isoDateOfLocalMidnight now.localDay now.tzOffset = toDateKey now) := by
  refine ⟨by simp [fallbackWeather], by simp [fallbackWeather], by simp [fallbackWeather],
    by simp [fallbackWeather], ?_, ?_, ?_, ?_, ?_⟩
  · intro i hi
    simp only [fallbackWeather]
    rw [List.getElem?_map, List.getElem?_range hi, Option.map_some']
    congr 2
    rw [hday, mkDate_today t k (i : Int) hk0 hk]
  · intro i hi
    omega
  · intro h
    omega
  · intro h
    omega
  · intro h
    have hu : (now.localDay * 1440 - now.tzOffset) / 1440 = now.localDay := by omega
    unfold isoDateOfLocalMidnight toDateKey
    rw [hu]

theorem fallbackWeather_amended_witness :
    (fallbackWeather ⟨20318, 630, -240⟩).time[0]? = some "2025-08-18" := by
  have h := (fallbackWeather_amended (12 * 2025 + 7) 17 ⟨20318, 630, -240⟩
    (by decide) (by decide) (by decide) (by decide)).2.2.2.2.1 0 (by decide)
  rw [h]
  decide

end Calendar

namespace Planner

theorem getKey_setKey_self (s : Store) (k : String) (v : List Ev) :
    getKey (setKey s k v) k = some v := by
  induction s with
  | nil => simp [setKey, getKey]
  | cons p rest ih =>
    obtain ⟨k', v'⟩ := p
    by_cases h : k' = k <;> simp [setKey, getKey, h, ih]

theorem getKey_setKey_ne (s : Store) (k k' : String) (v : List Ev) (h : k' ≠ k) :
    getKey (setKey s k v) k' = getKey s k' := by
  induction s with
  | nil =>
    simp only [setKey, getKey]
    rw [if_neg (fun hh => h hh.symm)]
  | cons p rest ih =>
    obtain ⟨k0, v0⟩ := p
    simp only [setKey]
    by_cases h0 : k0 = k
    · rw [if_pos h0]
      subst h0
      simp only [getKey]
      rw [if_neg (fun hh => h hh.symm), if_neg (fun hh => h hh.symm)]
    · rw [if_neg h0]
      simp only [getKey]
      by_cases h1 : k0 = k'
      · rw [if_pos h1, if_pos h1]
      · rw [if_neg h1, if_neg h1, ih]

theorem setKey_self (s : Store) (k : String) (l : List Ev) (h : getKey s k = some l) :
    setKey s k l = s := by
  induction s with
  | nil => simp [getKey] at h
  | cons p rest ih =>
    obtain ⟨k0, v0⟩ := p
    by_cases h0 : k0 = k
    · subst h0
      simp [getKey] at h
      simp [setKey, h]
    · simp [getKey, h0] at h
      simp [setKey, h0, ih h]

theorem jsIndexOf_not_mem (l : List Ev) (e : Ev) (h : e ∉ l) : jsIndexOf l e = -1 := by
  induction l with
  | nil => rfl
  | cons x xs ih =>
    simp only [List.mem_cons, not_or] at h
    have hxe : ¬ x = e := fun hh => h.1 hh.symm
    simp [jsIndexOf, hxe, ih h.2]

theorem jsIndexOf_append_fresh (l : List Ev) (e : Ev) (h : e ∉ l) :
    jsIndexOf (l ++ [e]) e = l.length := by
  induction l with
  | nil => simp [jsIndexOf]
  | cons x xs ih =>
    simp only [List.mem_cons, not_or] at h
    have hx := ih h.2
    have hxe : ¬ x = e := fun hh => h.1 hh.symm
    rw [List.cons_append,
      show jsIndexOf (x :: (xs ++ [e])) e =
        if x = e then 0
        else if jsIndexOf (xs ++ [e]) e = -1 then -1 else jsIndexOf (xs ++ [e]) e + 1
      from rfl,
      if_neg hxe, hx, if_neg (by omega)]
    simp

theorem eraseIdx_append_singleton (l : List Ev) (e : Ev) :
    (l ++ [e]).eraseIdx l.length = l := by
  induction l with
  | nil => rfl
  | cons x xs ih => simp [List.eraseIdx, ih]

theorem jsIndexOf_mem (l : List Ev) (e : Ev) (h : e ∈ l) :
    0 ≤ jsIndexOf l e ∧ jsIndexOf l e < l.length ∧
      l[(jsIndexOf l e).toNat]? = some e := by
  induction l with
  | nil => simp at h
  | cons x xs ih =>
    by_cases hx : x = e
    · subst hx
      simp [jsIndexOf]
    · have hmem : e ∈ xs := by
        rcases List.mem_cons.mp h with h1 | h1
        · exact absurd h1.symm hx
        · exact h1
      obtain ⟨h1, h2, h3⟩ := ih hmem
      have hne : jsIndexOf xs e ≠ -1 := by omega
      simp only [jsIndexOf, if_neg hx, if_neg hne]
      refine ⟨by omega, by simp; omega, ?_⟩
      rw [show (jsIndexOf xs e + 1).toNat = (jsIndexOf xs e).toNat + 1 from by omega]
      simpa using h3

theorem addEvent_fst (s : Store) (k : String) (e : Ev) :
    (addEvent s k e).1 = setKey s k (eventsOn s k ++ [e]) := by
  unfold addEvent eventsOn
  cases getKey s k <;> rfl

theorem setTitle_length (l : List Ev) (n : Nat) (t : String) :
    (setTitle l n t).length = l.length := by
  induction l generalizing n with
  | nil => rfl
  | cons x xs ih => cases n <;> simp [setTitle, ih]

theorem setTitle_getElem_ne (l : List Ev) (n : Nat) (t : String) (j : Nat) (h : j ≠ n) :
    (setTitle l n t)[j]? = l[j]? := by
  induction l generalizing n j with
  | nil => rfl
  | cons x xs ih =>
    cases n with
    | zero =>
      cases j with
      | zero => exact absurd rfl h
      | succ j => simp [setTitle]
    | succ n =>
      cases j with
      | zero => simp [setTitle]
      | succ j => simpa [setTitle] using ih n j (by omega)

theorem setTitle_getElem_self (l : List Ev) (n : Nat) (t : String) (x : Ev)
    (h : l[n]? = some x) : (setTitle l n t)[n]? = some { x with title := t } := by
  induction l generalizing n with
  | nil => simp at h
  | cons y xs ih =>
    cases n with
    | zero => simp at h; simp [setTitle, h]
    | succ n => simpa [setTitle] using ih n (by simpa using h)

/-- C4: adding an event and then deleting that same event restores the
    date key's event list. The hypothesis `e ∉ eventsOn s k` renders the JS
    reference semantics: the add handler constructs a fresh object literal,
    which is reference-distinct from everything already in the bucket. -/
theorem addDelete_roundTrip (s : Store) (k : String) (e : Ev)
    (hfresh : e ∉ eventsOn s k) :
    eventsOn (deleteClick (addEvent s k e).1 k e).1 k = eventsOn s k := by
  rw [addEvent_fst]
  simp only [deleteClick]
  have h1 : eventsOn (setKey s k (eventsOn s k ++ [e])) k = eventsOn s k ++ [e] := by
    unfold eventsOn
    rw [getKey_setKey_self]
    rfl
  rw [h1, jsIndexOf_append_fresh (eventsOn s k) e hfresh,
    if_pos (by omega : ((eventsOn s k).length : Int) > -1),
    show (((eventsOn s k).length : Int)).toNat = (eventsOn s k).length from by omega,
    eraseIdx_append_singleton]
  unfold eventsOn
  rw [getKey_setKey_self]
  rfl

theorem addDelete_roundTrip_witness :
    evA ∉ eventsOn [("2025-08-20", [evB])] "2025-08-20" ∧
    eventsOn (deleteClick (addEvent [("2025-08-20", [evB])] "2025-08-20" evA).1
        "2025-08-20" evA).1 "2025-08-20" =
      eventsOn [("2025-08-20", [evB])] "2025-08-20" :=
  ⟨by decide, addDelete_roundTrip [("2025-08-20", [evB])] "2025-08-20" evA (by decide)⟩

/-- C5: the all-day edit handler: a cancelled or blank prompt changes nothing;
    a non-blank title rewrites exactly the title of the addressed event, every
    other field, position and bucket unchanged. -/
theorem editTitle_frame (s : Store) (k : String) (e : Ev) :
    (editIconClick s k e none = (s, ⟨false, false, false⟩)) ∧
    (∀ t : String, (jsTrim t).length = 0 →
      editIconClick s k e (some t) = (s, ⟨false, false, false⟩)) ∧
    (∀ t : String, 0 < (jsTrim t).length → e ∈ eventsOn s k →
      (editIconClick s k e (some t)).1 =
        setKey s k (setTitle (eventsOn s k) (jsIndexOf (eventsOn s k) e).toNat (jsTrim t)) ∧
      (setTitle (eventsOn s k) (jsIndexOf (eventsOn s k) e).toNat
          (jsTrim t))[(jsIndexOf (eventsOn s k) e).toNat]? = some { e with title := (jsTrim t) } ∧
      (setTitle (eventsOn s k) (jsIndexOf (eventsOn s k) e).toNat (jsTrim t)).length =
        (eventsOn s k).length ∧
      (∀ j : Nat, j ≠ (jsIndexOf (eventsOn s k) e).toNat →
        (setTitle (eventsOn s k) (jsIndexOf (eventsOn s k) e).toNat (jsTrim t))[j]? =
          (eventsOn s k)[j]?) ∧
      (∀ k' : String, k' ≠ k →
        getKey ((editIconClick s k e (some t)).1) k' = getKey s k')) := by
  refine ⟨rfl, ?_, ?_⟩
  · intro t ht
    simp only [editIconClick]
    rw [if_neg (fun hc => by omega)]
  · intro t ht hmem
    obtain ⟨h0, h1, h2⟩ := jsIndexOf_mem (eventsOn s k) e hmem
    have hcond : 0 < (jsTrim t).length ∧ jsIndexOf (eventsOn s k) e > -1 := ⟨ht, by omega⟩
    have hfst : (editIconClick s k e (some t)).1 =
        setKey s k (setTitle (eventsOn s k) (jsIndexOf (eventsOn s k) e).toNat (jsTrim t)) := by
      simp only [editIconClick]
      rw [if_pos hcond]
    refine ⟨hfst, setTitle_getElem_self _ _ _ _ h2, setTitle_length _ _ _,
      fun j hj => setTitle_getElem_ne _ _ _ _ hj, ?_⟩
    intro k' hk'
    rw [hfst, getKey_setKey_ne _ _ _ _ hk']


theorem editTitle_frame_witness :
    0 < (jsTrim "  Standup  ").length ∧
    evA ∈ eventsOn [("2025-08-20", [evA, evB])] "2025-08-20" ∧
    (editIconClick [("2025-08-20", [evA, evB])] "2025-08-20" evA (some "  Standup  ")).1 =
      setKey [("2025-08-20", [evA, evB])] "2025-08-20"
        (setTitle (eventsOn [("2025-08-20", [evA, evB])] "2025-08-20")
          (jsIndexOf (eventsOn [("2025-08-20", [evA, evB])] "2025-08-20") evA).toNat
          (jsTrim "  Standup  ")) :=
  ⟨by decide, by decide,
    ((editTitle_frame [("2025-08-20", [evA, evB])] "2025-08-20" evA).2.2
      "  Standup  " (by decide) (by decide)).1⟩

/-- C10 counterexample: deleting a reference that is nowhere in the store,
    on a date key that has no bucket, does change the store — it creates an
    empty bucket under that key. -/
theorem deleteStale_counterexample :
    (deleteClick ([] : Store) "2025-08-18" evA).1 = [("2025-08-18", [])] ∧
    (deleteClick ([] : Store) "2025-08-18" evA).1 ≠ ([] : Store) := by
  decide

/-- C10 amended: deleting an event absent from `k`'s list leaves the store
    unchanged when `k`'s bucket exists; when the bucket is absent the sole
    change is a fresh empty bucket at `k`, so every date's event list is
    unchanged either way. -/
theorem deleteStale_noop (s : Store) (k : String) (e : Ev)
    (hnm : e ∉ eventsOn s k) :
    (∀ l, getKey s k = some l → (deleteClick s k e).1 = s) ∧
    (getKey s k = none → (deleteClick s k e).1 = setKey s k [] ∧
      ∀ k' : String, eventsOn ((deleteClick s k e).1) k' = eventsOn s k') := by
  have hidx : jsIndexOf (eventsOn s k) e = -1 := jsIndexOf_not_mem _ _ hnm
  constructor
  · intro l hl
    simp only [deleteClick]
    rw [hidx, if_neg (by omega)]
    have : eventsOn s k = l := by unfold eventsOn; rw [hl]; rfl
    rw [this]
    exact setKey_self s k l (by rw [← this]; unfold eventsOn; rw [hl]; rfl)
  · intro hn
    have hev : eventsOn s k = [] := by unfold eventsOn; rw [hn]; rfl
    have hfst : (deleteClick s k e).1 = setKey s k [] := by
      simp only [deleteClick]
      rw [hidx, if_neg (by omega), hev]
    refine ⟨hfst, fun k' => ?_⟩
    rw [hfst]
    by_cases hk : k' = k
    · subst hk
      unfold eventsOn
      rw [getKey_setKey_self, hn]
      rfl
    · unfold eventsOn
      rw [getKey_setKey_ne _ _ _ _ hk]

theorem deleteStale_noop_witness :
    evA ∉ eventsOn [("2025-08-20", [evB])] "2025-08-20" ∧
    (deleteClick [("2025-08-20", [evB])] "2025-08-20" evA).1 = [("2025-08-20", [evB])] :=
  ⟨by decide,
    (deleteStale_noop [("2025-08-20", [evB])] "2025-08-20" evA (by decide)).1 [evB] (by decide)⟩

/-- C6 counterexample: the all-day explicit-edit handler with a cancelled
    prompt performs no save and no re-render of either view. -/
theorem editCancel_counterexample :
    (editIconClick [("2025-08-18", [evA])] "2025-08-18" evA none).2 =
      ⟨false, false, false⟩ ∧
    (editIconClick [("2025-08-18", [evA])] "2025-08-18" evA none).2 ≠
      ⟨true, true, true⟩ := by
  decide

/-- C6 amended: the delete handler, the timed edit handler and both
    confirm-gated fallback handlers save and re-render both views
    unconditionally (cancel included); the all-day edit handler saves and
    re-renders exactly when the prompt was confirmed with a non-blank trimmed
    title and the event was found, and otherwise does nothing at all. -/
theorem plannerHandlers_effects (s : Store) (k : String) (e : Ev) :
    ((deleteClick s k e).2 = ⟨true, true, true⟩) ∧
    (∀ del input, (chipClick s k e del input).2 = ⟨true, true, true⟩) ∧
    (∀ t ti, (editBtnClick s k e t ti).2 = ⟨true, true, true⟩) ∧
    (∀ del t ti, (itemClick s k e del t ti).2 = ⟨true, true, true⟩) ∧
    ((editIconClick s k e none).2 = ⟨false, false, false⟩) ∧
    (∀ t : String, (editIconClick s k e (some t)).2 =
      if 0 < (jsTrim t).length ∧ jsIndexOf (eventsOn s k) e > -1
      then ⟨true, true, true⟩ else ⟨false, false, false⟩) := by
  refine ⟨rfl, fun del input => rfl, fun t ti => rfl, fun del t ti => rfl, rfl, ?_⟩
  intro t
  simp only [editIconClick]
  by_cases hc : 0 < (jsTrim t).length ∧ jsIndexOf (eventsOn s k) e > -1
  · rw [if_pos hc, if_pos hc]
  · rw [if_neg hc, if_neg hc]


end Planner

namespace Backend

theorem truthy_some (s : String) : truthy (some s) = true ↔ s ≠ "" := by
  simp [truthy]

/-- C7: the changePassword action: 400 with no table change when either
    password field is missing (falsy); 401 with no table change on unknown
    user or wrong current password; otherwise the stored password is updated
    and the call answers 200 `{status:'ok'}`. -/
theorem changePassword_spec (db : DB) (u : String) (pw npw : Option String)
    (hu : u ≠ "") :
    (truthy pw = false ∨ truthy npw = false →
      authHandler db ⟨"POST", some "changePassword", some u, pw, npw⟩ = (400, false, db)) ∧
    (truthy pw = true → truthy npw = true → findUser db.users u = none →
      authHandler db ⟨"POST", some "changePassword", some u, pw, npw⟩ = (401, false, db)) ∧
    (∀ r, truthy pw = true → truthy npw = true → findUser db.users u = some r →
      pw ≠ some r.password →
      authHandler db ⟨"POST", some "changePassword", some u, pw, npw⟩ = (401, false, db)) ∧
    (∀ r npws, findUser db.users u = some r → pw = some r.password → pw ≠ some "" →
      npw = some npws → npws ≠ "" →
      authHandler db ⟨"POST", some "changePassword", some u, pw, npw⟩ =
        (200, true, { db with users := updatePasswordById db.users r.id npws })) := by
  have hred : authHandler db ⟨"POST", some "changePassword", some u, pw, npw⟩ =
      (if ¬ (truthy pw = true ∧ truthy npw = true) then ((400 : Int), false, db)
       else match findUser db.users u with
         | none => ((401 : Int), false, db)
         | some r => if pw = some r.password then
             ((200 : Int), true, { db with users := updatePasswordById db.users r.id (npw.getD "") })
           else ((401 : Int), false, db)) := by
    simp only [authHandler, Option.getD]
    rw [if_neg (by decide : ¬ (("POST" : String) ≠ "POST")),
      if_neg (not_not_intro ⟨by simp [truthy], (truthy_some u).mpr hu⟩),
      if_neg (by decide : ¬ ("changePassword" = "signup")),
      if_neg (by decide : ¬ ("changePassword" = "login")),
      if_pos (by trivial)]
  refine ⟨?_, ?_, ?_, ?_⟩
  · intro hmiss
    rw [hred, if_pos (by rcases hmiss with h | h <;> simp [h])]
  · intro hpw hnpw hfind
    rw [hred, if_neg (by simp [hpw, hnpw]), hfind]
  · intro r hpw hnpw hfind hne
    rw [hred, if_neg (by simp [hpw, hnpw]), hfind]
    exact if_neg hne
  · intro r npws hfind hpw hpwne hnpw hnpwne
    have hpwt : truthy pw = true := by
      rw [hpw]
      refine (truthy_some _).mpr ?_
      intro hc
      exact hpwne (by rw [hpw, hc])
    have hnpwt : truthy npw = true := by
      rw [hnpw]
      exact (truthy_some _).mpr hnpwne
    have h2 : authHandler db ⟨"POST", some "changePassword", some u, pw, npw⟩ =
        if pw = some r.password then
          ((200 : Int), true, { db with users := updatePasswordById db.users r.id (npw.getD "") })
        else ((401 : Int), false, db) := by
      rw [hred, if_neg (by simp [hpwt, hnpwt]), hfind]
    rw [h2, if_pos hpw, hnpw]
    rfl

theorem changePassword_spec_witness :
    authHandler ⟨[⟨1, "alice", "secret123"⟩], [], 2⟩
      ⟨"POST", some "changePassword", some "alice", some "secret123", some "pw2"⟩ =
      (200, true, ⟨[⟨1, "alice", "pw2"⟩], [], 2⟩) := by
  have h := (changePassword_spec ⟨[⟨1, "alice", "secret123"⟩], [], 2⟩ "alice"
    (some "secret123") (some "pw2") (by decide)).2.2.2
    ⟨1, "alice", "secret123"⟩ "pw2" (by decide) rfl (by decide) rfl (by decide)
  rw [h]
  decide

/-- C9: a POST with a valid user and `events: null` passes the payload check
    (`typeof null` is `'object'`), so the handler creates/resolves the user
    and deletes all of their stored events before `Object.entries(null)`
    throws; the response is a 500, not the 400 `Invalid payload`. -/
theorem postNull_spec (db : DB) (u : String) (hu : u ≠ "") :
    (postEvents db (some u) EventsField.null).1 = 500 ∧
    (postEvents db (some u) EventsField.null).1 ≠ 400 ∧
    (postEvents db (some u) EventsField.null).2 =
      { (getOrCreateUser db u).2 with
        events := (getOrCreateUser db u).2.events.filter
          (fun r => r.user_id ≠ (getOrCreateUser db u).1) } ∧
    (∀ r, findUser db.users u = some r →
      (postEvents db (some u) EventsField.null).2.events =
        db.events.filter (fun row => row.user_id ≠ r.id)) := by
  have hv : ¬ (¬ (truthy (some u) = true) ∨ EventsField.null = EventsField.undef) := by
    simp [truthy, hu]
  have hpost : postEvents db (some u) EventsField.null =
      (500, { (getOrCreateUser db u).2 with
        events := (getOrCreateUser db u).2.events.filter
          (fun r => r.user_id ≠ (getOrCreateUser db u).1) }) := by
    simp only [postEvents, Option.getD]
    rw [if_neg hv]
  refine ⟨by rw [hpost], by rw [hpost]; norm_num, by rw [hpost], ?_⟩
  intro r hfind
  rw [hpost]
  simp only [getOrCreateUser, hfind]

theorem postNull_spec_witness :
    (postEvents ⟨[⟨1, "bob", "pw"⟩], [⟨1, "2025-08-18", "X", "09:00", "10:00", false, "#3EA6FF"⟩], 2⟩
      (some "bob") EventsField.null) =
      (500, ⟨[⟨1, "bob", "pw"⟩], [], 2⟩) := by
  have h := (postNull_spec ⟨[⟨1, "bob", "pw"⟩],
    [⟨1, "2025-08-18", "X", "09:00", "10:00", false, "#3EA6FF"⟩], 2⟩ "bob" (by decide)).2.2.1
  have h1 := (postNull_spec ⟨[⟨1, "bob", "pw"⟩],
    [⟨1, "2025-08-18", "X", "09:00", "10:00", false, "#3EA6FF"⟩], 2⟩ "bob" (by decide)).1
  rw [Prod.ext_iff]
  refine ⟨h1, ?_⟩
  rw [h]
  decide

theorem addToMap_notMem (m : List (String × List EvOut)) (k : String) (v : EvOut)
    (h : k ∉ m.map Prod.fst) : addToMap m k v = m ++ [(k, [v])] := by
  induction m with
  | nil => rfl
  | cons p rest ih =>
    obtain ⟨k0, l0⟩ := p
    simp only [List.map_cons, List.mem_cons, not_or] at h
    rw [show addToMap ((k0, l0) :: rest) k v =
        (if k0 = k then (k0, l0 ++ [v]) :: rest else (k0, l0) :: addToMap rest k v) from rfl,
      if_neg (fun hh => h.1 hh.symm), ih h.2]
    rfl

theorem addToMap_last (pre : List (String × List EvOut)) (k : String)
    (cur : List EvOut) (v : EvOut) (h : k ∉ pre.map Prod.fst) :
    addToMap (pre ++ [(k, cur)]) k v = pre ++ [(k, cur ++ [v])] := by
  induction pre with
  | nil => simp [addToMap]
  | cons p rest ih =>
    obtain ⟨k0, l0⟩ := p
    simp only [List.map_cons, List.mem_cons, not_or] at h
    rw [List.cons_append,
      show addToMap ((k0, l0) :: (rest ++ [(k, cur)])) k v =
        (if k0 = k then (k0, l0 ++ [v]) :: (rest ++ [(k, cur)])
         else (k0, l0) :: addToMap (rest ++ [(k, cur)]) k v) from rfl,
      if_neg (fun hh => h.1 hh.symm), ih h.2]
    rfl

theorem foldl_addToMap_run (uid : Int) (k : String) (l : List EvJson)
    (pre : List (String × List EvOut)) (cur : List EvOut)
    (h : k ∉ pre.map Prod.fst) :
    List.foldl (fun m row => addToMap m row.date (rowOut row)) (pre ++ [(k, cur)])
      (l.map (fun ev => rowOf uid k ev)) =
      pre ++ [(k, cur ++ l.map outOfJson)] := by
  induction l generalizing cur with
  | nil => simp
  | cons ev rest ih =>
    simp only [List.map_cons, List.foldl_cons]
    rw [show addToMap (pre ++ [(k, cur)]) (rowOf uid k ev).date (rowOut (rowOf uid k ev)) =
        pre ++ [(k, cur ++ [outOfJson ev])] from addToMap_last pre k cur (outOfJson ev) h,
      ih (cur ++ [outOfJson ev])]
    simp

theorem foldl_addToMap_flat (uid : Int) (M : List (String × List EvJson))
    (pre : List (String × List EvOut))
    (hpre : ∀ p ∈ M, p.1 ∉ pre.map Prod.fst)
    (hkeys : M.Pairwise (fun a b => a.1 ≠ b.1))
    (hne : ∀ p ∈ M, p.2 ≠ []) :
    List.foldl (fun m row => addToMap m row.date (rowOut row)) pre
      (M.flatMap (fun p => p.2.map (fun ev => rowOf uid p.1 ev))) =
      pre ++ M.map (fun p => (p.1, p.2.map outOfJson)) := by
  induction M generalizing pre with
  | nil => simp
  | cons p M' ih =>
    obtain ⟨k, l⟩ := p
    simp only [List.flatMap_cons, List.foldl_append]
    have hkpre : k ∉ pre.map Prod.fst := hpre (k, l) (by simp)
    obtain ⟨ev, l', rfl⟩ : ∃ ev l', l = ev :: l' := by
      cases l with
      | nil => exact absurd rfl (hne (k, []) (by simp))
      | cons a b => exact ⟨a, b, rfl⟩
    have hfirst : List.foldl (fun m row => addToMap m row.date (rowOut row)) pre
        ((ev :: l').map (fun e => rowOf uid k e)) = pre ++ [(k, (ev :: l').map outOfJson)] := by
      simp only [List.map_cons, List.foldl_cons]
      rw [show addToMap pre (rowOf uid k ev).date (rowOut (rowOf uid k ev)) =
          pre ++ [(k, [outOfJson ev])] from addToMap_notMem pre k (outOfJson ev) hkpre,
        foldl_addToMap_run uid k l' pre [outOfJson ev] hkpre]
      simp
    rw [hfirst, ih (pre ++ [(k, (ev :: l').map outOfJson)])
      (by
        intro q hq
        simp only [List.map_append, List.map_cons, List.map_nil]
        rw [List.mem_append]
        rintro (hin | hin)
        · exact hpre q (by simp [hq]) hin
        · simp at hin
          rcases List.pairwise_cons.mp hkeys with ⟨hk1, _⟩
          exact hk1 q hq hin.symm)
      (List.pairwise_cons.mp hkeys).2
      (fun q hq => hne q (by simp [hq]))]
    simp

theorem findUser_append_self (us : List UserRow) (u : String) (r : UserRow)
    (h : findUser us u = none) (hr : r.username = u) :
    findUser (us ++ [r]) u = some r := by
  induction us with
  | nil => simp [findUser, hr]
  | cons x xs ih =>
    simp only [findUser] at h ⊢
    by_cases hx : x.username = u
    · rw [if_pos hx] at h
      exact absurd h (by simp)
    · rw [if_neg hx] at h ⊢
      exact ih h


/-- C8: POST /events with a full mapping answers `{status:"saved"}`, creates
    the user with a blank credential when absent, and replaces the user's
    events wholesale, so that a following GET returns exactly the posted
    mapping with colors defaulted. The hypotheses state what a JS object
    payload guarantees: distinct keys, and (for the exact-mapping equality)
    no empty buckets, since a key with no rows never reaches the response. -/
theorem postGet_roundTrip (db : DB) (u : String) (M : List (String × List EvJson))
    (hu : u ≠ "")
    (hkeys : M.Pairwise (fun a b => a.1 ≠ b.1)) (hne : ∀ p ∈ M, p.2 ≠ []) :
    (postEvents db (some u) (EventsField.obj M)).1 = 200 ∧
    (∃ r, findUser (postEvents db (some u) (EventsField.obj M)).2.users u = some r ∧
      (findUser db.users u = none → r.password = "")) ∧
    getEvents (postEvents db (some u) (EventsField.obj M)).2 (some u) =
      (200, M.map (fun p => (p.1, p.2.map outOfJson))) := by
  have hpost : postEvents db (some u) (EventsField.obj M) =
      (200, { (getOrCreateUser db u).2 with events :=
        ((getOrCreateUser db u).2.events.filter
          (fun r => r.user_id ≠ (getOrCreateUser db u).1)) ++
        (M.flatMap (fun p => p.2.map (fun ev => rowOf (getOrCreateUser db u).1 p.1 ev))) }) := by
    simp only [postEvents, Option.getD]
    rw [if_neg (by simp [truthy, hu])]
  have main : ∀ (uid : Int) (users' : List UserRow) (events0 : List EvRow) (nid : Int)
      (r' : UserRow), findUser users' u = some r' → r'.id = uid →
      getEvents ⟨users', (events0.filter (fun r => r.user_id ≠ uid)) ++
        (M.flatMap (fun p => p.2.map (fun ev => rowOf uid p.1 ev))), nid⟩ (some u) =
        (200, M.map (fun p => (p.1, p.2.map outOfJson))) := by
    intro uid users' events0 nid r' hr' hid
    have hget : getEvents ⟨users', (events0.filter (fun r => r.user_id ≠ uid)) ++
        (M.flatMap (fun p => p.2.map (fun ev => rowOf uid p.1 ev))), nid⟩ (some u) =
        (200, rowsToMap ((((events0.filter (fun r => r.user_id ≠ uid)) ++
          (M.flatMap (fun p => p.2.map (fun ev => rowOf uid p.1 ev)))).filter
            (fun row => row.user_id = r'.id)))) := by
      simp only [getEvents, Option.getD]
      rw [if_neg (by simp [truthy, hu]), hr']
    rw [hget, List.filter_append]
    have h1 : (events0.filter (fun r => r.user_id ≠ uid)).filter
        (fun row => row.user_id = r'.id) = [] := by
      rw [List.filter_eq_nil_iff]
      intro a ha
      rw [List.mem_filter] at ha
      simp only [decide_eq_true_eq] at ha ⊢
      rw [hid] at *
      omega
    have h2 : (M.flatMap (fun p => p.2.map (fun ev => rowOf uid p.1 ev))).filter
        (fun row => row.user_id = r'.id) = M.flatMap (fun p => p.2.map (fun ev => rowOf uid p.1 ev)) := by
      rw [List.filter_eq_self]
      intro a ha
      rw [List.mem_flatMap] at ha
      obtain ⟨p, _, hp⟩ := ha
      rw [List.mem_map] at hp
      obtain ⟨ev, _, rfl⟩ := hp
      simp [rowOf, hid]
    rw [h1, h2, List.nil_append]
    unfold rowsToMap
    rw [foldl_addToMap_flat uid M [] (by simp) hkeys hne]
    rfl
  rcases hfu : findUser db.users u with _ | r
  · have hgoc : getOrCreateUser db u = (db.nextId,
        { db with users := db.users ++ [⟨db.nextId, u, ""⟩], nextId := db.nextId + 1 }) := by
      simp only [getOrCreateUser, hfu]
    have hfind : findUser (db.users ++ [⟨db.nextId, u, ""⟩]) u = some ⟨db.nextId, u, ""⟩ :=
      findUser_append_self db.users u ⟨db.nextId, u, ""⟩ hfu rfl
    refine ⟨by rw [hpost], ⟨⟨db.nextId, u, ""⟩, ?_, fun _ => rfl⟩, ?_⟩
    · rw [hpost]
      simp only [hgoc]
      exact hfind
    · rw [hpost]
      simp only [hgoc]
      exact main db.nextId (db.users ++ [⟨db.nextId, u, ""⟩]) db.events (db.nextId + 1)
        ⟨db.nextId, u, ""⟩ hfind rfl
  · have hgoc : getOrCreateUser db u = (r.id, db) := by
      simp only [getOrCreateUser, hfu]
    refine ⟨by rw [hpost], ⟨r, ?_, fun hc => by simp [hfu] at hc⟩, ?_⟩
    · rw [hpost]
      simp only [hgoc]
      exact hfu
    · rw [hpost]
      simp only [hgoc]
      exact main r.id db.users db.events db.nextId r hfu rfl

theorem postGet_roundTrip_witness :
    getEvents (postEvents ⟨[], [], 1⟩ (some "bob")
        (EventsField.obj [("2025-08-18", [⟨"X", "09:00", "10:00", false, none⟩])])).2
      (some "bob") =
      (200, [("2025-08-18", [⟨"X", "09:00", "10:00", false, "#3EA6FF"⟩])]) := by
  have h := (postGet_roundTrip ⟨[], [], 1⟩ "bob"
    [("2025-08-18", [⟨"X", "09:00", "10:00", false, none⟩])]
    (by decide) (by simp) (by simp)).2.2
  rw [h]
  decide

end Backend
